import Mathlib

/-!
Verification of `download_install_tool.py`: a shallow embedding of the
device check, the artifact fetcher, the artifact installer, the Excel
status ledger and the batch orchestrators, together with theorems that
settle the specification claims.

External effects (the `adb` subprocess, the HTTP transport, the file
system, operator input) enter the embedding as explicit oracle
parameters; the thread pool is modelled by completing the per-entry
tasks one after another, which the spec declares order-agnostic.
-/

set_option autoImplicit false

namespace DownloadInstallTool

/-- One row of the Excel ledger `download.xlsx`: the columns
应用名 (application name), 下载链接 (download URL), 下载状态 (download
status), 安装状态 (install status). -/
structure Row where
  name : String
  url : String
  download_status : String
  install_status : String
deriving DecidableEq, Repr, Inhabited

/-- Python `str.endswith`: the suffix test used on adb output lines and
on file names (`line.endswith("device")`, `f.endswith(".apk")`). -/
def pyEndsWith (s suffix : String) : Bool :=
  decide (suffix.data <:+ s.data)

/-- Accumulator-based splitter over characters implementing Python
`str.split()` with no argument: runs of whitespace separate words, and
empty words are dropped. `acc` holds the current word reversed. -/
def wordsCore (acc : List Char) : List Char → List (List Char)
  | [] => if acc = [] then [] else [acc.reverse]
  | c :: cs =>
    if c.isWhitespace then
      if acc = [] then wordsCore [] cs else acc.reverse :: wordsCore [] cs
    else wordsCore (c :: acc) cs

/-- Python `str.split()` (no separator argument), as used in
`devices[0].split()[0]`. -/
def pySplit (s : String) : List String :=
  (wordsCore [] s.data).map List.asString

/-- Embedding of `check_device_online` (lines 12-32). The adb subprocess
is abstracted by its decoded output `lines`; the function keeps the
lines ending in `"device"`, returns `none` when zero or several remain,
and otherwise the first whitespace-delimited token of the single
remaining line. The surrounding `try/except` only yields `none` as well
and is outside the per-output behaviour modelled here. -/
def check_device_online (lines : List String) : Option String :=
  let devices := lines.filter (fun l => pyEndsWith l "device")
  if devices.length = 0 then
    none
  else if devices.length > 1 then
    none
  else
    some ((pySplit (devices.headD "")).headD "")

/-- Model of `os.path.join` for the simple `dir`/`file` case used by the
tool. -/
def pathJoin (dir file : String) : String :=
  dir ++ "/" ++ file

/-- The streaming HTTP response of `requests.get(url, stream=True)`
after `raise_for_status()` succeeded: advertised content length and the
1024-byte chunks delivered by `iter_content`. -/
structure HttpResponse where
  contentLength : Nat
  chunks : List (List Nat)
deriving Repr

/-- Embedding of `download_app` (lines 34-65). The whole `try` body —
`requests.get`, `raise_for_status`, and writing the chunks to
`download_dir/app_name.apk` — is abstracted by the oracle `http`
applied to the URL: `.error e` means some exception with message `e`
was raised inside the body, `.ok` means the body ran to completion.
The broad `except Exception` clause converts any raised exception into
the pair `(None, "下载失败: <e>")`; success returns the written path and
`"下载成功"`. -/
def download_app (app_name url download_dir : String)
    (http : String → Except String HttpResponse) : Option String × String :=
  match http url with
  | .error e => (none, "下载失败: " ++ e)
  | .ok _resp => (some (pathJoin download_dir (app_name ++ ".apk")), "下载成功")

/-- Outcome of one `subprocess.run(..., check=True)` invocation:
`ok` is exit status zero; `calledProcessError e` is a non-zero exit
(which `check=True` raises as `subprocess.CalledProcessError`, rendered
`e`); `otherError e` is any other exception raised by the invocation,
such as `FileNotFoundError` when the adb binary is missing. -/
inductive RunResult where
  | ok : RunResult
  | calledProcessError : String → RunResult
  | otherError : String → RunResult
deriving DecidableEq, Repr

/-- Embedding of `install_app` (lines 67-75). `run` is the subprocess
oracle, applied to the exact argument vector of the source. The result
is `.ok status` when the function returns the status string, and
`.error e` when an exception propagates out of the function: the source
catches only `subprocess.CalledProcessError`, so every other exception
of the invocation escapes uncaught. -/
def install_app (device_id apk_path : String)
    (run : List String → RunResult) : Except String String :=
  match run ["adb", "-s", device_id, "install", apk_path] with
  | .ok => .ok "安装成功"
  | .calledProcessError e => .ok ("安装失败: " ++ e)
  | .otherError e => .error e

/-- Helper of the ledger upsert: overwrite the download and install
status of the first row whose name matches, leaving everything else in
place. This is the `df.at[index, ...]` branch of `update_excel_status`,
where `index = df[df['应用名'] == app_name].index[0]` is the first
matching position. -/
def updateFirst (df : List Row) (app_name d i : String) : List Row :=
  match df with
  | [] => []
  | r :: rs =>
    if r.name = app_name then
      { r with download_status := d, install_status := i } :: rs
    else
      r :: updateFirst rs app_name d i

/-- Embedding of `update_excel_status` (lines 77-99). The Excel file is
abstracted by the row list `df` it holds; the function returns the row
list written back. If `app_name` occurs among the names, the first
matching row's two status fields are overwritten in place; otherwise a
new four-field row is appended at the end (`pd.concat`). -/
def update_excel_status (df : List Row) (app_name url d i : String) : List Row :=
  if df.any (fun r => r.name = app_name) then
    updateFirst df app_name d i
  else
    df ++ [⟨app_name, url, d, i⟩]

/-- Number of ledger rows carrying a given application name. -/
def countName (df : List Row) (n : String) : Nat :=
  df.countP (fun r => r.name = n)

/-- First ledger row carrying a given application name, if any. -/
def findRow (df : List Row) (n : String) : Option Row :=
  df.find? (fun r => r.name = n)

/-- Python substring membership `needle in hay` for a nonempty needle,
as used in the orchestrators' checks `"成功" in download_status`:
splitting at the needle yields more than one part exactly when the
needle occurs. -/
def strContains (hay needle : String) : Bool :=
  decide (2 ≤ (hay.splitOn needle).length)

/-- Result of one `process_app` task of `download_and_install_apps`:
the fetcher's returned path and status, the recorded install status,
and whether the installer was invoked for this entry. -/
structure EntryResult where
  apk_path : Option String
  download_status : String
  install_status : String
  installCalled : Bool
deriving Repr

/-- Embedding of the inner `process_app` of `download_and_install_apps`
(lines 117-144), restricted to one entry. `fetch` abstracts
`download_app` applied to `(app_name, url, download_dir)`; `install`
abstracts `install_app` applied to `(device_id, apk_path)` and is the
status string it returns. The install status starts as the sentinel
"未安装" and the installer runs exactly when the fetcher returned a
path. -/
def process_app (fetch : String → String → String → Option String × String)
    (install : String → String → String)
    (device_id download_dir : String) (row : Row) : EntryResult :=
  let fr := fetch row.name row.url download_dir
  match fr.1 with
  | some p =>
    { apk_path := some p
      download_status := fr.2
      install_status := install device_id p
      installCalled := true }
  | none =>
    { apk_path := none
      download_status := fr.2
      install_status := "未安装"
      installCalled := false }

/-- Observable actions of a workflow run: fetching an artifact,
invoking the installer on the device, upserting the ledger, and
locating a device through adb. -/
inductive Event where
  | download : String → String → Event
  | install : String → String → Event
  | upsert : String → String → String → String → Event
  | locate : Event
deriving DecidableEq, Repr

/-- Recognizer for the events the download-only workflow may emit:
fetches and ledger upserts, never an install or a device lookup. -/
def eventIsDownloadOrUpsert : Event → Bool
  | .download _ _ => true
  | .upsert _ _ _ _ => true
  | .install _ _ => false
  | .locate => false

/-- Running state of `download_and_install_apps`: the ledger file's
rows, the five counters of the source, and the trace of emitted
events. -/
structure DIState where
  ledger : List Row
  downloadSuccess : Nat
  downloadFailure : Nat
  totalInstalls : Nat
  installSuccess : Nat
  installFailure : Nat
  events : List Event
deriving Repr

/-- One completed `process_app` task of `download_and_install_apps`:
counts the download by the `"成功" in download_status` test, counts the
install when one was attempted, and upserts the ledger with both
statuses. -/
def diStep (fetch : String → String → String → Option String × String)
    (install : String → String → String)
    (device_id download_dir : String) (s : DIState) (row : Row) : DIState :=
  let r := process_app fetch install device_id download_dir row
  { ledger := update_excel_status s.ledger row.name row.url r.download_status r.install_status
    downloadSuccess := s.downloadSuccess + (if strContains r.download_status "成功" then 1 else 0)
    downloadFailure := s.downloadFailure + (if strContains r.download_status "成功" then 0 else 1)
    totalInstalls := s.totalInstalls + (if r.installCalled then 1 else 0)
    installSuccess :=
      s.installSuccess + (if r.installCalled && strContains r.install_status "成功" then 1 else 0)
    installFailure :=
      s.installFailure + (if r.installCalled && !strContains r.install_status "成功" then 1 else 0)
    events := s.events ++ [Event.download row.name row.url]
      ++ (match r.apk_path with
          | some p => [Event.install device_id p]
          | none => [])
      ++ [Event.upsert row.name row.url r.download_status r.install_status] }

/-- Embedding of `download_and_install_apps` (lines 101-157): all tasks
over the rows read from `download.xlsx` are completed, starting from
zero counters and the initial ledger contents `ledger0`. -/
def download_and_install_apps (fetch : String → String → String → Option String × String)
    (install : String → String → String)
    (device_id download_dir : String) (rows ledger0 : List Row) : DIState :=
  rows.foldl (diStep fetch install device_id download_dir) ⟨ledger0, 0, 0, 0, 0, 0, []⟩

/-- Running state of `download_apps`: ledger rows, the two download
counters, and the trace of emitted events. -/
structure DLState where
  ledger : List Row
  downloadSuccess : Nat
  downloadFailure : Nat
  events : List Event
deriving Repr

/-- One completed task of the download-only workflow (its inner
`process_app`, lines 224-240): fetches, counts the download, and
upserts the ledger with install status fixed to the "未安装"
sentinel. -/
def dlStep (fetch : String → String → String → Option String × String)
    (download_dir : String) (s : DLState) (row : Row) : DLState :=
  let fr := fetch row.name row.url download_dir
  { ledger := update_excel_status s.ledger row.name row.url fr.2 "未安装"
    downloadSuccess := s.downloadSuccess + (if strContains fr.2 "成功" then 1 else 0)
    downloadFailure := s.downloadFailure + (if strContains fr.2 "成功" then 0 else 1)
    events := s.events
      ++ [Event.download row.name row.url, Event.upsert row.name row.url fr.2 "未安装"] }

/-- Embedding of `download_apps` (lines 212-252). The `device_id`
parameter is kept with the type the callers use (`main` passes `None`,
modelled `none`); the body never consults it and never invokes the
installer. -/
def download_apps (fetch : String → String → String → Option String × String)
    (device_id : Option String) (download_dir : String) (rows ledger0 : List Row) : DLState :=
  rows.foldl (dlStep fetch download_dir) ⟨ledger0, 0, 0, []⟩

/-- Index of the last `'.'` in a character list, if any. -/
def dotIdx : List Char → Option Nat
  | [] => none
  | c :: cs =>
    match dotIdx cs with
    | some i => some (i + 1)
    | none => if c = '.' then some 0 else none

/-- Base part of Python `os.path.splitext` for a bare file name (no
directory separators): split at the last dot, unless every character
before that dot is itself a dot (leading dots mark a hidden file, not
an extension). -/
def splitextBase (p : String) : String :=
  match dotIdx p.data with
  | none => p
  | some i =>
    if (p.data.take i).all (fun c => c = '.') then p
    else (p.data.take i).asString

/-- Embedding of the inner `install_apk` of `install_local_apks`
(lines 183-198), restricted to its ledger effect on one file. `install`
abstracts `install_app device_id ·` by the status string it returns;
`df` is the ledger snapshot read before the batch (used only for the
URL lookup) and `ledger` the current contents of the Excel file that
`update_excel_status` rewrites. -/
def install_apk (install : String → String) (df ledger : List Row)
    (apk_dir apk_file : String) : List Row :=
  let apk_path := pathJoin apk_dir apk_file
  let install_status := install apk_path
  let app_name := splitextBase apk_file
  let url :=
    match df.find? (fun r => r.name = app_name) with
    | some r => r.url
    | none => "本地安装"
  update_excel_status ledger app_name url "已下载" install_status

/-- Python `str.strip()` with no argument: drop whitespace from both
ends of the string. -/
def pyStrip (s : String) : String :=
  ((s.data.dropWhile Char.isWhitespace).reverse.dropWhile Char.isWhitespace).reverse.asString

/-- Python `str.lower()`: lower-case every character. -/
def pyLower (s : String) : String :=
  (s.data.map Char.toLower).asString

/-- Python `input(...).strip().lower()` as applied to the confirmation
prompt of `delete_all_apks`. -/
def pyStripLower (s : String) : String :=
  pyLower (pyStrip s)

/-- Embedding of `delete_all_apks` (lines 254-277). The directory is
abstracted by its file-name list; `removeFails f` records whether
`os.remove` raised for `f` (the exception is caught and the file
survives). With no APK files the function returns early; with
confirmation exactly "y" after strip/lower it removes each APK file
whose removal succeeds; on "n" or any other input it deletes
nothing. -/
def delete_all_apks (files : List String) (confirmation : String)
    (removeFails : String → Bool) : List String :=
  let apk_files := files.filter (fun f => pyEndsWith f ".apk")
  if apk_files.isEmpty then files
  else if pyStripLower confirmation = "y" then
    files.filter (fun f => !(pyEndsWith f ".apk") || removeFails f)
  else files

/-! Helper lemmas about the ledger upsert. -/

/-- The in-place status update keeps the number of rows. -/
theorem updateFirst_length (df : List Row) (n d i : String) :
    (updateFirst df n d i).length = df.length := by
  induction df with
  | nil => rfl
  | cons a rs ih =>
    by_cases ha : a.name = n
    · simp [updateFirst, ha]
    · simp [updateFirst, ha, ih]

/-- Structure of the in-place update: the ledger splits at the first
matching row, whose two status fields are overwritten while its name
and URL and every other row stay untouched. -/
theorem updateFirst_decomp (df : List Row) (n d i : String)
    (h : df.any (fun r => r.name = n) = true) :
    ∃ pre r post, df = pre ++ r :: post
      ∧ (∀ x ∈ pre, x.name ≠ n)
      ∧ r.name = n
      ∧ updateFirst df n d i
          = pre ++ { r with download_status := d, install_status := i } :: post := by
  induction df with
  | nil => simp at h
  | cons a rs ih =>
    by_cases ha : a.name = n
    · exact ⟨[], a, rs, by simp, by simp, ha, by simp [updateFirst, ha]⟩
    · have h2 : rs.any (fun r => r.name = n) = true := by
        simpa [List.any_cons, ha] using h
      obtain ⟨pre, r, post, hdf, hpre, hr, hupd⟩ := ih h2
      refine ⟨a :: pre, r, post, by simp [hdf], ?_, hr, ?_⟩
      · intro x hx
        rcases List.mem_cons.mp hx with hx | hx
        · exact hx ▸ ha
        · exact hpre x hx
      · simp [updateFirst, ha, hupd]

/-- Upsert on a ledger that contains the name: the decomposition of
`updateFirst` carries over. -/
theorem upsert_present_decomp (df : List Row) (n u d i : String)
    (h : df.any (fun r => r.name = n) = true) :
    ∃ pre r post, df = pre ++ r :: post
      ∧ (∀ x ∈ pre, x.name ≠ n)
      ∧ r.name = n
      ∧ update_excel_status df n u d i
          = pre ++ { r with download_status := d, install_status := i } :: post := by
  have := updateFirst_decomp df n d i h
  simpa [update_excel_status, h] using this

/-- Upsert on a ledger that does not contain the name appends a fresh
row holding all four fields. -/
theorem upsert_absent_eq (df : List Row) (n u d i : String)
    (h : df.any (fun r => r.name = n) = false) :
    update_excel_status df n u d i = df ++ [⟨n, u, d, i⟩] := by
  simp [update_excel_status, h]

/-- Name membership as a count: the presence test of the upsert is
exactly "the name count is positive". -/
theorem any_name_iff_countName_pos (df : List Row) (n : String) :
    df.any (fun r => r.name = n) = true ↔ 0 < countName df n := by
  rw [countName, List.countP_pos_iff, List.any_eq_true]

/-- A name the presence test rejects has count zero. -/
theorem countName_eq_zero_of_any_false (df : List Row) (n : String)
    (h : df.any (fun r => r.name = n) = false) : countName df n = 0 := by
  rw [countName, List.countP_eq_zero]
  intro a ha
  simpa using (List.any_eq_false.mp h) a ha

/-- Generic fact: `find?` skips a block of elements the predicate
rejects. -/
theorem find_skip_forall_false {α : Type} (p : α → Bool) (l1 l2 : List α)
    (h : ∀ x ∈ l1, p x = false) : (l1 ++ l2).find? p = l2.find? p := by
  induction l1 with
  | nil => rfl
  | cons a l ih =>
    rw [List.cons_append, List.find?_cons_of_neg]
    · exact ih (fun x hx => h x (List.mem_cons_of_mem a hx))
    · simp [h a (List.mem_cons_self a l)]

/-- A ledger holding the name at most once holds it exactly once after
an upsert. -/
theorem upsert_count_one (df : List Row) (n u d i : String)
    (h : countName df n ≤ 1) :
    countName (update_excel_status df n u d i) n = 1 := by
  cases hp : df.any (fun r => r.name = n) with
  | true =>
    obtain ⟨pre, r, post, hdf, hpre, hr, hupd⟩ := upsert_present_decomp df n u d i hp
    have hpre0 : countName pre n = 0 := by
      rw [countName, List.countP_eq_zero]
      intro a ha
      simpa using hpre a ha
    have hcount : countName df n = countName pre n + (countName post n + 1) := by
      rw [hdf, countName, List.countP_append, List.countP_cons_of_pos _ _ (by simpa using hr)]
      rfl
    have hpost0 : countName post n = 0 := by omega
    have hnew : countName (pre ++ { r with download_status := d, install_status := i } :: post) n
        = countName pre n + (countName post n + 1) := by
      rw [countName, List.countP_append, List.countP_cons_of_pos _ _ (by simpa using hr)]
      rfl
    rw [hupd, hnew, hpre0, hpost0]
  | false =>
    rw [upsert_absent_eq df n u d i hp, countName, List.countP_append, ← countName,
      countName_eq_zero_of_any_false df n hp]
    simp [List.countP_cons]

/-- After an upsert, the first row found under the name carries the
upsert's status fields, and its URL is the upsert's URL whenever the
name was previously absent. -/
theorem upsert_findRow (df : List Row) (n u d i : String) :
    ∃ r, findRow (update_excel_status df n u d i) n = some r
      ∧ r.name = n ∧ r.download_status = d ∧ r.install_status = i
      ∧ (df.any (fun x => x.name = n) = false → r.url = u) := by
  cases hp : df.any (fun r => r.name = n) with
  | true =>
    obtain ⟨pre, r, post, hdf, hpre, hr, hupd⟩ := upsert_present_decomp df n u d i hp
    refine ⟨{ r with download_status := d, install_status := i }, ?_, hr, rfl, rfl, ?_⟩
    · rw [hupd, findRow, find_skip_forall_false]
      · rw [List.find?_cons_of_pos]
        simpa using hr
      · intro x hx
        simpa using hpre x hx
    · intro hfalse
      exact absurd hfalse (by simp)
  | false =>
    refine ⟨⟨n, u, d, i⟩, ?_, rfl, rfl, rfl, fun _ => rfl⟩
    rw [upsert_absent_eq df n u d i hp, findRow, find_skip_forall_false]
    · simp
    · intro x hx
      simpa using (List.any_eq_false.mp hp) x hx

/-- Every upsert either keeps the ledger's length (in-place update) or
grows it by exactly one appended row. -/
theorem upsert_length (df : List Row) (n u d i : String) :
    (update_excel_status df n u d i).length = df.length
    ∨ (update_excel_status df n u d i).length = df.length + 1 := by
  cases hp : df.any (fun r => r.name = n) with
  | true =>
    left
    simp [update_excel_status, hp, updateFirst_length]
  | false =>
    right
    simp [upsert_absent_eq df n u d i hp]

/-- An upsert for a name already present keeps the ledger's length. -/
theorem upsert_length_of_present (df : List Row) (n u d i : String)
    (h : df.any (fun r => r.name = n) = true) :
    (update_excel_status df n u d i).length = df.length := by
  simp [update_excel_status, h, updateFirst_length]

/-! Helper lemmas about word splitting and the device check. -/

/-- The splitter never returns the empty list while a word is in
progress. -/
theorem wordsCore_ne_nil_of_acc (cs : List Char) :
    ∀ acc : List Char, acc ≠ [] → wordsCore acc cs ≠ [] := by
  induction cs with
  | nil =>
    intro acc hacc
    simp [wordsCore, hacc]
  | cons c cs ih =>
    intro acc hacc
    by_cases hw : c.isWhitespace
    · simp [wordsCore, hw, hacc]
    · simpa [wordsCore, hw] using ih (c :: acc) (by simp)

/-- A character list containing some non-whitespace character splits
into at least one word. -/
theorem wordsCore_ne_nil (cs : List Char) :
    ∀ acc : List Char, (∃ c ∈ cs, c.isWhitespace = false) → wordsCore acc cs ≠ [] := by
  induction cs with
  | nil =>
    intro acc h
    simp at h
  | cons c cs ih =>
    intro acc h
    by_cases hw : c.isWhitespace
    · have h2 : ∃ x ∈ cs, x.isWhitespace = false := by
        obtain ⟨x, hx, hxw⟩ := h
        rcases List.mem_cons.mp hx with rfl | hx
        · exact absurd hw (by simp [hxw])
        · exact ⟨x, hx, hxw⟩
      by_cases hacc : acc = []
      · simpa [wordsCore, hw, hacc] using ih [] h2
      · simp [wordsCore, hw, hacc]
    · simpa [wordsCore, hw] using wordsCore_ne_nil_of_acc cs (c :: acc) (by simp)

/-- A string with some non-whitespace character has a first
whitespace-delimited token. -/
theorem pySplit_ne_nil (s : String) (h : ∃ c ∈ s.data, c.isWhitespace = false) :
    pySplit s ≠ [] := by
  unfold pySplit
  simpa using wordsCore_ne_nil s.data [] h

/-- A line passing the `endswith("device")` filter contains a
non-whitespace character. -/
theorem exists_nonws_of_endsWith_device (l : String)
    (h : pyEndsWith l "device" = true) : ∃ c ∈ l.data, c.isWhitespace = false := by
  have hsuffix : "device".data <:+ l.data := of_decide_eq_true h
  obtain ⟨t, ht⟩ := hsuffix
  refine ⟨'d', ?_, by decide⟩
  rw [← ht]
  exact List.mem_append_right t (by decide)

/-! Helper lemmas about the batch counters and the event traces. -/

/-- One download-and-install task adds exactly one download tally and
equal install tallies and install total. -/
theorem diStep_counts (fetch : String → String → String → Option String × String)
    (install : String → String → String)
    (device_id download_dir : String) (s : DIState) (row : Row) :
    (diStep fetch install device_id download_dir s row).downloadSuccess
        + (diStep fetch install device_id download_dir s row).downloadFailure
      = s.downloadSuccess + s.downloadFailure + 1
    ∧ (diStep fetch install device_id download_dir s row).installSuccess
        + (diStep fetch install device_id download_dir s row).installFailure
        + s.totalInstalls
      = s.installSuccess + s.installFailure
        + (diStep fetch install device_id download_dir s row).totalInstalls := by
  simp only [diStep]
  cases hc : strContains (process_app fetch install device_id download_dir row).download_status "成功" <;>
    cases hic : (process_app fetch install device_id download_dir row).installCalled <;>
      cases hs : strContains (process_app fetch install device_id download_dir row).install_status "成功" <;>
        simp [hc, hic, hs] <;> omega

/-- Folding download-and-install tasks over any row list keeps both
counter identities. -/
theorem di_fold_counts (fetch : String → String → String → Option String × String)
    (install : String → String → String)
    (device_id download_dir : String) (rows : List Row) :
    ∀ s : DIState,
      (rows.foldl (diStep fetch install device_id download_dir) s).downloadSuccess
          + (rows.foldl (diStep fetch install device_id download_dir) s).downloadFailure
        = s.downloadSuccess + s.downloadFailure + rows.length
      ∧ (rows.foldl (diStep fetch install device_id download_dir) s).installSuccess
          + (rows.foldl (diStep fetch install device_id download_dir) s).installFailure
          + s.totalInstalls
        = s.installSuccess + s.installFailure
          + (rows.foldl (diStep fetch install device_id download_dir) s).totalInstalls := by
  induction rows with
  | nil => intro s; simp
  | cons row rows ih =>
    intro s
    obtain ⟨ha, hb⟩ := ih (diStep fetch install device_id download_dir s row)
    obtain ⟨hc, hd⟩ := diStep_counts fetch install device_id download_dir s row
    rw [List.foldl_cons]
    simp only [List.length_cons]
    constructor
    · rw [ha, hc]
      omega
    · omega

/-- One download-only task adds exactly one download tally. -/
theorem dlStep_counts (fetch : String → String → String → Option String × String)
    (download_dir : String) (s : DLState) (row : Row) :
    (dlStep fetch download_dir s row).downloadSuccess
        + (dlStep fetch download_dir s row).downloadFailure
      = s.downloadSuccess + s.downloadFailure + 1 := by
  simp only [dlStep]
  cases hc : strContains (fetch row.name row.url download_dir).2 "成功" <;> simp [hc] <;> omega

/-- Folding download-only tasks over any row list tallies one download
per row. -/
theorem dl_fold_counts (fetch : String → String → String → Option String × String)
    (download_dir : String) (rows : List Row) :
    ∀ s : DLState,
      (rows.foldl (dlStep fetch download_dir) s).downloadSuccess
          + (rows.foldl (dlStep fetch download_dir) s).downloadFailure
        = s.downloadSuccess + s.downloadFailure + rows.length := by
  induction rows with
  | nil => intro s; simp
  | cons row rows ih =>
    intro s
    rw [List.foldl_cons, ih (dlStep fetch download_dir s row),
      dlStep_counts fetch download_dir s row]
    simp only [List.length_cons]
    omega

/-- The download-only fold only ever appends fetch and upsert events. -/
theorem dl_fold_events (fetch : String → String → String → Option String × String)
    (download_dir : String) (rows : List Row) :
    ∀ s : DLState, s.events.all eventIsDownloadOrUpsert = true →
      (rows.foldl (dlStep fetch download_dir) s).events.all eventIsDownloadOrUpsert = true := by
  induction rows with
  | nil => intro s h; simpa using h
  | cons row rows ih =>
    intro s h
    rw [List.foldl_cons]
    refine ih (dlStep fetch download_dir s row) ?_
    simp [dlStep, List.all_append, h, eventIsDownloadOrUpsert]

/-! Claim theorems. -/

/-- C1: on a ledger holding a name at most once (the ledger invariant),
`update_excel_status` called twice with that name leaves exactly one
row for the name, the first row found for it carries the second call's
download and install status values, and each upsert either keeps the
ledger's length (in-place mutation) or appends exactly one row — it
never duplicates the name. -/
theorem update_excel_status_upsert_unique (df : List Row) (n u1 d1 i1 u2 d2 i2 : String)
    (h : countName df n ≤ 1) :
    countName (update_excel_status df n u1 d1 i1) n = 1
    ∧ countName (update_excel_status (update_excel_status df n u1 d1 i1) n u2 d2 i2) n = 1
    ∧ (∃ r, findRow (update_excel_status (update_excel_status df n u1 d1 i1) n u2 d2 i2) n = some r
        ∧ r.name = n ∧ r.download_status = d2 ∧ r.install_status = i2)
    ∧ ((update_excel_status df n u1 d1 i1).length = df.length
        ∨ (update_excel_status df n u1 d1 i1).length = df.length + 1)
    ∧ (update_excel_status (update_excel_status df n u1 d1 i1) n u2 d2 i2).length
        = (update_excel_status df n u1 d1 i1).length := by
  have h1 := upsert_count_one df n u1 d1 i1 h
  have h2 := upsert_count_one (update_excel_status df n u1 d1 i1) n u2 d2 i2 (by omega)
  obtain ⟨r, hfind, hname, hd, hi, _⟩ :=
    upsert_findRow (update_excel_status df n u1 d1 i1) n u2 d2 i2
  have hany : (update_excel_status df n u1 d1 i1).any (fun x => x.name = n) = true :=
    (any_name_iff_countName_pos _ n).mpr (by omega)
  exact ⟨h1, h2, ⟨r, hfind, hname, hd, hi⟩, upsert_length df n u1 d1 i1,
    upsert_length_of_present _ n u2 d2 i2 hany⟩

/-- Witness for C1 at a concrete ledger and name. -/
theorem update_excel_status_upsert_unique_witness :
    countName (update_excel_status
      (update_excel_status [⟨"a", "u", "x", "y"⟩] "app" "url1" "下载成功" "未安装")
      "app" "url2" "下载失败: e" "未安装") "app" = 1 :=
  (update_excel_status_upsert_unique [⟨"a", "u", "x", "y"⟩] "app" "url1" "下载成功" "未安装"
    "url2" "下载失败: e" "未安装" (by decide)).2.1

/-- C2: after every batch run completes, the download success and
failure counters of both the download-and-install and the download-only
workflow sum to the number of ledger rows, and the install success and
failure counters sum to the number of entries for which an install was
attempted. -/
theorem batch_counts_complete (fetch : String → String → String → Option String × String)
    (install : String → String → String) (device_id download_dir : String)
    (dl_device : Option String) (rows ledger0 : List Row) :
    (download_and_install_apps fetch install device_id download_dir rows ledger0).downloadSuccess
        + (download_and_install_apps fetch install device_id download_dir rows ledger0).downloadFailure
      = rows.length
    ∧ (download_and_install_apps fetch install device_id download_dir rows ledger0).installSuccess
        + (download_and_install_apps fetch install device_id download_dir rows ledger0).installFailure
      = (download_and_install_apps fetch install device_id download_dir rows ledger0).totalInstalls
    ∧ (download_apps fetch dl_device download_dir rows ledger0).downloadSuccess
        + (download_apps fetch dl_device download_dir rows ledger0).downloadFailure
      = rows.length := by
  obtain ⟨ha, hb⟩ := di_fold_counts fetch install device_id download_dir rows
    ⟨ledger0, 0, 0, 0, 0, 0, []⟩
  have hc := dl_fold_counts fetch download_dir rows ⟨ledger0, 0, 0, []⟩
  unfold download_and_install_apps download_apps
  simp at ha hb hc
  refine ⟨?_, ?_, ?_⟩ <;> omega

/-- C3: the device check returns an identifier exactly when precisely
one adb output line ends in "device"; that identifier is the first
whitespace-delimited token of the single matching line, and with zero
or several matching lines the check returns `none`. -/
theorem check_device_online_spec (lines : List String) :
    ((lines.filter (fun l => pyEndsWith l "device")).length ≠ 1 →
      check_device_online lines = none)
    ∧ (∀ l, lines.filter (fun l => pyEndsWith l "device") = [l] →
      ∃ d rest, pySplit l = d :: rest ∧ check_device_online lines = some d) := by
  constructor
  · intro h
    unfold check_device_online
    rcases Nat.eq_zero_or_pos (lines.filter (fun l => pyEndsWith l "device")).length with h0 | hpos
    · simp [h0]
    · have h1 : (lines.filter (fun l => pyEndsWith l "device")).length > 1 := by omega
      rw [if_neg (by omega), if_pos h1]
  · intro l hl
    have hmem : l ∈ lines.filter (fun l => pyEndsWith l "device") := by
      rw [hl]
      exact List.mem_cons_self l []
    have hends : pyEndsWith l "device" = true := (List.mem_filter.mp hmem).2
    have hne : pySplit l ≠ [] := pySplit_ne_nil l (exists_nonws_of_endsWith_device l hends)
    obtain ⟨d, rest, hd⟩ : ∃ d rest, pySplit l = d :: rest := by
      cases hps : pySplit l with
      | nil => exact absurd hps hne
      | cons a t => exact ⟨a, t, rfl⟩
    refine ⟨d, rest, hd, ?_⟩
    unfold check_device_online
    rw [hl]
    simp [hd]

/-- Witness for C3 at a concrete adb output. -/
theorem check_device_online_spec_witness :
    ∃ d rest, pySplit "emulator-5554\tdevice" = d :: rest
      ∧ check_device_online ["List of devices attached", "emulator-5554\tdevice"] = some d :=
  (check_device_online_spec ["List of devices attached", "emulator-5554\tdevice"]).2
    "emulator-5554\tdevice" (by decide)

/-- C4: the fetcher is total over its exception oracle: every raised
exception is converted to `(none, failure message containing the
reason)`, and success yields the written file path paired with the
success status. -/
theorem download_app_never_raises (app_name url download_dir : String)
    (http : String → Except String HttpResponse) :
    (∃ e, http url = .error e
      ∧ download_app app_name url download_dir http = (none, "下载失败: " ++ e)
      ∧ ∃ pre post, "下载失败: " ++ e = pre ++ e ++ post)
    ∨ (∃ resp, http url = .ok resp
      ∧ download_app app_name url download_dir http
          = (some (pathJoin download_dir (app_name ++ ".apk")), "下载成功")) := by
  cases h : http url with
  | error e =>
    exact Or.inl ⟨e, rfl, by simp [download_app, h], "下载失败: ", "", by simp⟩
  | ok resp =>
    exact Or.inr ⟨resp, rfl, by simp [download_app, h]⟩

/-- C5: in one download-and-install task the installer runs exactly
when the fetcher returned a path; a failed download leaves the install
status at the "未安装" sentinel with the installer never called, and a
successful one records the installer's result. -/
theorem process_app_install_iff (fetch : String → String → String → Option String × String)
    (install : String → String → String) (device_id download_dir : String) (row : Row) :
    ((process_app fetch install device_id download_dir row).installCalled = true
      ↔ (fetch row.name row.url download_dir).1 ≠ none)
    ∧ ((fetch row.name row.url download_dir).1 = none →
      (process_app fetch install device_id download_dir row).installCalled = false
      ∧ (process_app fetch install device_id download_dir row).install_status = "未安装")
    ∧ (∀ p, (fetch row.name row.url download_dir).1 = some p →
      (process_app fetch install device_id download_dir row).installCalled = true
      ∧ (process_app fetch install device_id download_dir row).install_status
          = install device_id p) := by
  cases h : (fetch row.name row.url download_dir).1 <;> simp [process_app, h]

/-- Witness for C5 at a concrete failing fetch. -/
theorem process_app_install_iff_witness :
    (process_app (fun _ _ _ => (none, "下载失败: x")) (fun _ _ => "安装成功") "dev" "."
      ⟨"a", "u", "", ""⟩).installCalled = false
    ∧ (process_app (fun _ _ _ => (none, "下载失败: x")) (fun _ _ => "安装成功") "dev" "."
      ⟨"a", "u", "", ""⟩).install_status = "未安装" :=
  (process_app_install_iff (fun _ _ _ => (none, "下载失败: x")) (fun _ _ => "安装成功")
    "dev" "." ⟨"a", "u", "", ""⟩).2.1 rfl

/-- Counterexample to C6 as stated: when the subprocess invocation
fails with something other than a non-zero exit — here the bridge tool
missing — `install_app` does not return a status string: the exception
escapes the function. -/
theorem install_app_exception_escapes :
    install_app "emulator-5554" "Download/app.apk"
      (fun _ => RunResult.otherError "FileNotFoundError: adb")
      = Except.error "FileNotFoundError: adb" := rfl

/-- C6 (amended): a zero exit of the bridge tool yields the success
status, a non-zero exit raises `CalledProcessError`, which is caught
and downgraded to a failure status containing the exception's text; any
other invocation failure is not caught and propagates out of
`install_app`. -/
theorem install_app_exit_code_spec (device_id apk_path : String)
    (run : List String → RunResult) :
    (run ["adb", "-s", device_id, "install", apk_path] = RunResult.ok →
      install_app device_id apk_path run = .ok "安装成功")
    ∧ (∀ e, run ["adb", "-s", device_id, "install", apk_path] = RunResult.calledProcessError e →
      install_app device_id apk_path run = .ok ("安装失败: " ++ e)
      ∧ ∃ pre post, "安装失败: " ++ e = pre ++ e ++ post)
    ∧ (∀ e, run ["adb", "-s", device_id, "install", apk_path] = RunResult.otherError e →
      install_app device_id apk_path run = .error e) := by
  refine ⟨?_, ?_, ?_⟩
  · intro h
    simp [install_app, h]
  · intro e he
    exact ⟨by simp [install_app, he], "安装失败: ", "", by simp⟩
  · intro e he
    simp [install_app, he]

/-- Witness for the amended C6 at a concrete zero-exit run. -/
theorem install_app_exit_code_spec_witness :
    install_app "emulator-5554" "Download/app.apk" (fun _ => RunResult.ok)
      = .ok "安装成功" :=
  (install_app_exit_code_spec "emulator-5554" "Download/app.apk" (fun _ => RunResult.ok)).1 rfl

/-- C7: one install-local task upserts the ledger so that the file's
base name has exactly one row, recording the "已下载" download sentinel
and the installer's result; when the name was absent from the ledger
the recorded URL is the snapshot row's URL if the snapshot has the
name, else the "本地安装" sentinel. -/
theorem install_apk_records_local_install (install : String → String) (df ledger : List Row)
    (apk_dir apk_file : String) (h : countName ledger (splitextBase apk_file) ≤ 1) :
    countName (install_apk install df ledger apk_dir apk_file) (splitextBase apk_file) = 1
    ∧ ∃ r, findRow (install_apk install df ledger apk_dir apk_file) (splitextBase apk_file) = some r
        ∧ r.name = splitextBase apk_file
        ∧ r.download_status = "已下载"
        ∧ r.install_status = install (pathJoin apk_dir apk_file)
        ∧ (ledger.any (fun x => x.name = splitextBase apk_file) = false →
            r.url = (match df.find? (fun x => x.name = splitextBase apk_file) with
                     | some q => q.url
                     | none => "本地安装")) := by
  simp only [install_apk]
  exact ⟨upsert_count_one ledger _ _ _ _ h, upsert_findRow ledger _ _ _ _⟩

/-- Witness for C7 at a concrete file and empty ledgers. -/
theorem install_apk_records_local_install_witness :
    countName (install_apk (fun _ => "安装成功") [] [] "." "app.apk") (splitextBase "app.apk") = 1 :=
  (install_apk_records_local_install (fun _ => "安装成功") [] [] "." "app.apk" (by decide)).1

/-- C8: an upsert for a name the ledger contains splits the ledger at
the first matching row; only that row's download and install status
change, its name and URL are kept, and all rows before and after it are
identical before and after the call. -/
theorem update_excel_status_frame (df : List Row) (n u d i : String)
    (h : df.any (fun r => r.name = n) = true) :
    ∃ pre r post, df = pre ++ r :: post
      ∧ (∀ x ∈ pre, x.name ≠ n)
      ∧ r.name = n
      ∧ update_excel_status df n u d i
          = pre ++ { r with download_status := d, install_status := i } :: post :=
  upsert_present_decomp df n u d i h

/-- Witness for C8 at a concrete two-row ledger. -/
theorem update_excel_status_frame_witness :
    ∃ pre r post, ([⟨"a", "u", "s", "t"⟩, ⟨"b", "v", "s2", "t2"⟩] : List Row) = pre ++ r :: post
      ∧ (∀ x ∈ pre, x.name ≠ "b")
      ∧ r.name = "b"
      ∧ update_excel_status [⟨"a", "u", "s", "t"⟩, ⟨"b", "v", "s2", "t2"⟩] "b" "w" "下载成功" "安装成功"
          = pre ++ { r with download_status := "下载成功", install_status := "安装成功" } :: post :=
  update_excel_status_frame [⟨"a", "u", "s", "t"⟩, ⟨"b", "v", "s2", "t2"⟩] "b" "w"
    "下载成功" "安装成功" (by decide)

/-- C9: the download-only workflow ignores its device argument — any
two device values (including `none`, as passed by the menu) give the
same ledger, the same counters and the same event trace — and that
trace holds only fetch and upsert events: no installer invocation and
no device lookup. -/
theorem download_apps_device_independent (fetch : String → String → String → Option String × String)
    (d1 d2 : Option String) (download_dir : String) (rows ledger0 : List Row) :
    download_apps fetch d1 download_dir rows ledger0
      = download_apps fetch d2 download_dir rows ledger0
    ∧ (download_apps fetch d1 download_dir rows ledger0).events.all
        eventIsDownloadOrUpsert = true := by
  refine ⟨rfl, ?_⟩
  exact dl_fold_events fetch download_dir rows ⟨ledger0, 0, 0, []⟩ rfl

/-- C10: the APK cleanup deletes nothing unless the stripped, lowered
confirmation equals "y", in which case exactly the APK files whose
removal does not raise are deleted; on "n" or any other input the
directory is unchanged. -/
theorem delete_all_apks_confirmation (files : List String) (confirmation : String)
    (removeFails : String → Bool) :
    (pyStripLower confirmation ≠ "y" →
      delete_all_apks files confirmation removeFails = files)
    ∧ (pyStripLower confirmation = "y" →
      delete_all_apks files confirmation removeFails
        = files.filter (fun f => !(pyEndsWith f ".apk") || removeFails f)) := by
  constructor
  · intro h
    unfold delete_all_apks
    by_cases he : (files.filter (fun f => pyEndsWith f ".apk")).isEmpty
    · simp [he]
    · simp [he, h]
  · intro h
    unfold delete_all_apks
    by_cases he : (files.filter (fun f => pyEndsWith f ".apk")).isEmpty
    · rw [if_pos he]
      have hemp : files.filter (fun f => pyEndsWith f ".apk") = [] := by
        simpa [List.isEmpty_iff] using he
      have hall : ∀ f ∈ files, (!(pyEndsWith f ".apk") || removeFails f) = true := by
        intro f hf
        cases hpe : pyEndsWith f ".apk" with
        | false => simp
        | true =>
          have hmem : f ∈ files.filter (fun f => pyEndsWith f ".apk") :=
            List.mem_filter.mpr ⟨hf, hpe⟩
          rw [hemp] at hmem
          simp at hmem
      exact (List.filter_eq_self.mpr hall).symm
    · simp [he, h]

/-- Witness for C10 at a concrete directory and the refusal input. -/
theorem delete_all_apks_confirmation_witness :
    delete_all_apks ["a.apk", "b.txt"] "n" (fun _ => false) = ["a.apk", "b.txt"] :=
  (delete_all_apks_confirmation ["a.apk", "b.txt"] "n" (fun _ => false)).1 (by decide)

end DownloadInstallTool
